import Mathlib

/-! Shallow embedding of the fs-grl episode batching code
(src/fs_grl/data/episode.py) and of the datamodule code
(src/fs_grl/data/datamodule.py), with theorems checking the design
documentation against it. -/

/-- Python exception classes the embedded code can raise.  The design
documentation's error taxonomy also names `configurationError` and
`shapeMismatchError`; they are included so that statements about them can be
expressed, but no code path below ever constructs them (no such classes exist
in the source). -/
inductive PyErr where
  | notImplementedError
  | configurationError
  | shapeMismatchError
  | attributeError (msg : String)
  | indexError (msg : String)
  | runtimeError (msg : String)
  | zeroDivisionError
  | keyError
  | typeError
  deriving DecidableEq, Repr

/-- A torch tensor (or tensor-like collated object): a payload together with
the device it lives on. -/
structure Tensor (α : Type) where
  data : α
  device : String
  deriving DecidableEq, Repr

/-- torch.tensor(...) and Batch.from_data_list(...) construct on the cpu device. -/
def Tensor.cpu (a : α) : Tensor α := ⟨a, "cpu"⟩

/-- Tensor.to(device): same payload, new device. -/
def Tensor.to (t : Tensor α) (device : String) : Tensor α := ⟨t.data, device⟩

/-- A torch_geometric graph record, restricted to the fields the embedded code
reads: the node count and the scalar graph label y. -/
structure Data where
  num_nodes : Nat
  y : Int
  deriving DecidableEq, Repr

instance : Inhabited Data := ⟨⟨0, 0⟩⟩

/-- episode.py lines 9-13: the EpisodeHParams dataclass.  It declares exactly
these three fields and no methods. -/
structure EpisodeHParams where
  num_classes_per_episode : Nat
  num_supports_per_class : Nat
  num_queries_per_class : Nat
  deriving DecidableEq, Repr

/-- episode.py lines 16-28: an Episode holds supports, queries, the chosen
class labels and a reference to the hyper-parameters. -/
structure Episode where
  supports : List Data
  queries : List Data
  labels : List Int
  episode_hparams : EpisodeHParams
  deriving DecidableEq, Repr

instance : Inhabited Episode := ⟨⟨[], [], [], ⟨0, 0, 0⟩⟩⟩

/-- episode.py lines 31-55: the fields of an EpisodeBatch.  The
assignment_vectors dict with its two keys "support" and "queries" is split
into two fields. -/
structure EpisodeBatch where
  supports : Tensor (List Data)
  queries : Tensor (List Data)
  labels : Tensor (List Int)
  episode_hparams : EpisodeHParams
  assignment_vectors_support : Tensor (List (List Nat))
  assignment_vectors_queries : Tensor (List (List Nat))
  supports_len : Tensor (List Nat)
  queries_len : Tensor (List Nat)
  num_episodes : Nat
  cosine_targets : Tensor (List Int)
  label_targets : Tensor (List Nat)
  batch_size : ℚ
  deriving DecidableEq, Repr

/-- Row-major reshape of a flat list into rows of width c
(torch reshape(-1, c)); meaningful when c divides the length. -/
def toRows (c : Nat) (l : List α) : List (List α) :=
  (List.range (l.length / c)).map fun r => (l.drop (r * c)).take c

/-- Helper for argmaxIdx: current index, best index so far, best value so far. -/
def argmaxAux : List Int → Nat → Nat → Int → Nat
  | [], _, best, _ => best
  | x :: xs, i, best, bestVal =>
    if bestVal < x then argmaxAux xs (i + 1) i x else argmaxAux xs (i + 1) best bestVal

/-- Index of the first maximal element of a row (torch.argmax over dim -1). -/
def argmaxIdx : List Int → Nat
  | [] => 0
  | x :: xs => argmaxAux xs 1 0 x

/-- episode.py lines 86-94: the flattened cosine-target entries.  For each
episode, itertools.product(episode.queries, episode.labels) enumerates pairs
query-major / label-minor, each contributing (query.y == label) * 2 - 1. -/
def cosinePieces (episode_list : List Episode) : List Int :=
  episode_list.flatMap fun episode =>
    episode.queries.flatMap fun query =>
      episode.labels.map fun label => if query.y = label then 1 else -1

/-- episode.py lines 57-110: EpisodeBatch.from_episode_list.  Graph collation
(Batch.from_data_list, episode.py lines 66-67) is modeled as the ordered
concatenation of the graph records; torch_geometric's Batch.from_data_list
indexes data_list[0] unconditionally, so on an empty concatenated supports or
queries list it raises IndexError at line 66 or 67, before the torch.cat at
line 86 is reached.  torch.cat on an empty list of tensors raises
RuntimeError, as does reshape(-1, C) when C does not divide the element
count; the float division computing batch_size in __init__ (line 53) raises
ZeroDivisionError when K*C = 0.  No other failure is possible. -/
def EpisodeBatch.from_episode_list (episode_list : List Episode)
    (episode_hparams : EpisodeHParams) : Except PyErr EpisodeBatch :=
  let supports := episode_list.flatMap Episode.supports
  let queries := episode_list.flatMap Episode.queries
  let labels := episode_list.flatMap Episode.labels
  let K := episode_hparams.num_supports_per_class
  let C := episode_hparams.num_classes_per_episode
  let Q := episode_hparams.num_queries_per_class
  let b := episode_list.length
  let supports_len := episode_list.map fun episode => (episode.supports.map Data.num_nodes).sum
  let queries_len := episode_list.map fun episode => (episode.queries.map Data.num_nodes).sum
  let assignment_support := (List.range b).map fun i => List.replicate (K * C) i
  let assignment_queries := (List.range b).map fun i => List.replicate (Q * C) i
  let pieces := cosinePieces episode_list
  if supports.isEmpty then
    Except.error (PyErr.indexError "list index out of range")
  else if queries.isEmpty then
    Except.error (PyErr.indexError "list index out of range")
  else if pieces.isEmpty then
    Except.error (PyErr.runtimeError "torch.cat expected a non-empty list of Tensors")
  else if C = 0 ∨ pieces.length % C ≠ 0 then
    Except.error (PyErr.runtimeError "shape is invalid for input size")
  else if K * C = 0 then
    Except.error PyErr.zeroDivisionError
  else
    Except.ok
      { supports := Tensor.cpu supports
        queries := Tensor.cpu queries
        labels := Tensor.cpu labels
        episode_hparams := episode_hparams
        assignment_vectors_support := Tensor.cpu assignment_support
        assignment_vectors_queries := Tensor.cpu assignment_queries
        supports_len := Tensor.cpu supports_len
        queries_len := Tensor.cpu queries_len
        num_episodes := b
        cosine_targets := Tensor.cpu pieces
        label_targets := Tensor.cpu ((toRows C pieces).map argmaxIdx)
        batch_size := (supports.length : ℚ) / ((K * C : Nat) : ℚ) }

/-- episode.py lines 112-117: EpisodeBatch.to moves supports, queries,
cosine_targets, label_targets and labels to the device and touches nothing
else. -/
def EpisodeBatch.to (batch : EpisodeBatch) (device : String) : EpisodeBatch :=
  { batch with
    supports := batch.supports.to device
    queries := batch.queries.to device
    cosine_targets := batch.cosine_targets.to device
    label_targets := batch.label_targets.to device
    labels := batch.labels.to device }

/-- The classes split read from the split specification file:
a dict with keys "base" and "novel" holding class names. -/
structure ClassesSplit where
  base : List String
  novel : List String
  deriving DecidableEq, Repr

/-- datamodule.py lines 207-216: GraphFewShotDataModule.get_classes_split.
Reading and json-parsing the split file is modeled by passing the parsed file
content when the path is present.  When `classes_split_path` is None the code
logs "No classes split provided, creating new split." and raises
NotImplementedError.  This method is called from `__init__` (line 157), so the
failure surfaces when the datamodule is constructed. -/
def get_classes_split (classes_split_path : Option ClassesSplit) :
    Except PyErr ClassesSplit :=
  match classes_split_path with
  | some parsed_split_file => Except.ok parsed_split_file
  | none => Except.error PyErr.notImplementedError

/-- The two possible shapes of the dict returned by split_query_support: the
pre-computed index split loaded from a file (keys "query_idxs"/"support_idxs"),
or the freshly split sample lists (keys "supports"/"queries"). -/
inductive QuerySupportSplit where
  | idxs (query_idxs support_idxs : List Nat)
  | samples (supports queries : List Data)
  deriving DecidableEq, Repr

/-- datamodule.py lines 218-241: GraphFewShotDataModule.split_query_support.
If a split file is present its index lists are returned.  Otherwise
np.random.shuffle produces some permutation of range(len(data_list)) — modeled
by the explicit argument `perm` — and the first ceil(support_ratio *
len(data_list)) shuffled positions become supports, the rest queries. -/
def split_query_support (query_support_split_path : Option (List Nat × List Nat))
    ( support_ratio : ℚ) (perm : List Nat) (data_list : List Data) :
    QuerySupportSplit :=
  match query_support_split_path with
  | some (query_idxs, support_idxs) => QuerySupportSplit.idxs query_idxs support_idxs
  | none =>
    let support_upperbound := (⌈ support_ratio * (data_list.length : ℚ)⌉).toNat
    let support_idxs := perm.take support_upperbound
    let query_idxs := perm.drop support_upperbound
    QuerySupportSplit.samples
      (support_idxs.map fun idx => data_list.getD idx default)
      (query_idxs.map fun idx => data_list.getD idx default)

/-- Python dict built by a comprehension over (index, label) pairs: a later
binding of the same key overwrites an earlier one, so lookup finds the last
matching pair. -/
def dictLookup (pairs : List (Int × Nat)) (key : Int) : Option Nat :=
  (pairs.reverse.find? fun p => p.1 == key).map Prod.snd

/-- Python sorted(...): a stable ascending sort. -/
def pySorted (l : List Int) : List Int := l.insertionSort (· ≤ ·)

/-- The per-sample body of the destructive apply_ in convert_to_local_labels:
`sample.y.apply_(lambda x: global_to_local_labels[x])`.  A label that is not a
dict key raises KeyError. -/
def applyLabelDict (global_to_local_labels : List (Int × Nat)) (sample : Data) :
    Except PyErr Data :=
  match dictLookup global_to_local_labels sample.y with
  | some local_label => Except.ok { sample with y := (local_label : Int) }
  | none => Except.error PyErr.keyError

/-- datamodule.py lines 432-448: GraphTransferDataModule.convert_to_local_labels.
Builds the dict mapping each stage label (enumerated in sorted order) to its
index, then destructively applies it to every sample's y. -/
def convert_to_local_labels (stage_labels : List Int) (samples : List Data) :
    Except PyErr (List (Int × Nat) × List Data) := do
  let global_to_local_labels := (pySorted stage_labels).enum.map fun p => (p.2, p.1)
  let converted ← samples.mapM (applyLabelDict global_to_local_labels)
  return (global_to_local_labels, converted)

/-- datamodule.py lines 450-463: GraphTransferDataModule.split_train_val.
np.random.shuffle is modeled by the explicit permutation argument. -/
def split_train_val (train_val_split_ratio : ℚ) (perm : List Nat)
    (data_list : List Data) : List Data × List Data :=
  let train_upperbound := (⌈train_val_split_ratio * (data_list.length : ℚ)⌉).toNat
  let train_idxs := perm.take train_upperbound
  let val_idxs := perm.drop train_upperbound
  (train_idxs.map fun idx => data_list.getD idx default,
   val_idxs.map fun idx => data_list.getD idx default)

/-- The per-stage sample lists that GraphTransferDataModule.setup hands to the
datasets it constructs. -/
structure TransferSetupResult where
  base_global_to_local_labels : List (Int × Nat)
  train_dataset_samples : List Data
  val_dataset_samples : List Data
  novel_global_to_local_labels : List (Int × Nat)
  test_dataset_samples : List Data
  test_dataset_stage_labels : List Nat
  deriving DecidableEq, Repr

/-- datamodule.py lines 394-430: GraphTransferDataModule.setup for stage "fit".
Base samples are converted to local labels, then split into the train/val
datasets; novel samples are converted to local labels, then handed to the test
MapEpisodicDataset together with local_novel_labels.  Conversion is invoked
once per stage, before the datasets (from which episodes are later sampled)
are built. -/
def transfer_setup (base_labels novel_labels : List Int)
    (base_samples novel_samples : List Data) (train_val_split_ratio : ℚ)
    (perm : List Nat) : Except PyErr TransferSetupResult := do
  let (base_global_to_local_labels, converted_base) ←
    convert_to_local_labels base_labels base_samples
  let (base_train_samples, base_val_samples) :=
    split_train_val train_val_split_ratio perm converted_base
  let (novel_global_to_local_labels, converted_novel) ←
    convert_to_local_labels novel_labels novel_samples
  let local_novel_labels := (List.range (pySorted novel_labels).length)
  return { base_global_to_local_labels := base_global_to_local_labels
           train_dataset_samples := base_train_samples
           val_dataset_samples := base_val_samples
           novel_global_to_local_labels := novel_global_to_local_labels
           test_dataset_samples := converted_novel
           test_dataset_stage_labels := local_novel_labels }

/-- datamodule.py lines 30-55: the MetaData attributes. -/
structure MetaData where
  classes_to_label_dict : List (String × Int)
  feature_dim : Nat
  num_classes : Nat
  episode_hparams : EpisodeHParams
  classes_split : ClassesSplit
  deriving DecidableEq, Repr

/-- The MetaData constructor: num_classes is derived from the dict. -/
def MetaData.init (class_to_label_dict : List (String × Int)) (feature_dim : Nat)
    (episode_hparams : EpisodeHParams) (classes_split : ClassesSplit) : MetaData :=
  { classes_to_label_dict := class_to_label_dict
    feature_dim := feature_dim
    num_classes := class_to_label_dict.length
    episode_hparams := episode_hparams
    classes_split := classes_split }

/-- The EpisodeHParams dataclass (episode.py lines 9-13) declares only its
three fields and no methods: in particular there is no as_dict method, so the
attribute lookup `self.episode_hparams.as_dict` performed by MetaData.save
finds nothing. -/
def EpisodeHParams.attr_as_dict : Option (EpisodeHParams → List (String × Nat)) :=
  none

/-- The content of the data.json file MetaData.save is meant to write. -/
structure MetaDataJson where
  classes_to_label_dict : List (String × Int)
  feature_dim : Nat
  episode_hparams : List (String × Nat)
  classes_split : ClassesSplit
  deriving DecidableEq, Repr

/-- datamodule.py lines 57-71: MetaData.save.  Building the data dict
evaluates `self.episode_hparams.as_dict()`; Python resolves the attribute
before calling it, and EpisodeHParams has no attribute as_dict, so an
AttributeError is raised before anything is serialized. -/
def MetaData.save (m : MetaData) : Except PyErr MetaDataJson :=
  match EpisodeHParams.attr_as_dict with
  | some as_dict_method =>
    Except.ok
      { classes_to_label_dict := m.classes_to_label_dict
        feature_dim := m.feature_dim
        episode_hparams := as_dict_method m.episode_hparams
        classes_split := m.classes_split }
  | none =>
    Except.error (PyErr.attributeError "EpisodeHParams object has no attribute as_dict")

/-- Lookup in the string-keyed episode_hparams dict of the json artifact. -/
def jsonLookup (pairs : List (String × Nat)) (key : String) : Option Nat :=
  (pairs.reverse.find? fun p => p.1 == key).map Prod.snd

/-- datamodule.py lines 73-90: MetaData.load.  Rebuilds the MetaData from the
parsed json, constructing EpisodeHParams(**data["episode_hparams"]); missing
keyword arguments raise TypeError. -/
def MetaData.load (j : MetaDataJson) : Except PyErr MetaData :=
  match jsonLookup j.episode_hparams "num_classes_per_episode",
      jsonLookup j.episode_hparams "num_supports_per_class",
      jsonLookup j.episode_hparams "num_queries_per_class" with
  | some n, some k, some q =>
    Except.ok (MetaData.init j.classes_to_label_dict j.feature_dim ⟨n, k, q⟩ j.classes_split)
  | _, _, _ => Except.error PyErr.typeError

/-- The cosine-target block a single episode contributes (the inner double
loop of episode.py lines 86-94). -/
def cosineBlock (episode : Episode) : List Int :=
  episode.queries.flatMap fun query =>
    episode.labels.map fun label => if query.y = label then 1 else -1

/-- The per-query rows of an episode's cosine-target block. -/
def cosineRows (episode : Episode) : List (List Int) :=
  episode.queries.map fun query =>
    episode.labels.map fun label => if query.y = label then 1 else -1

/-- The supports_len entries of the single-episode batch built from one
episode (empty if that batch cannot be built). -/
def singleSupportsLen (episode_hparams : EpisodeHParams) (episode : Episode) : List Nat :=
  (((EpisodeBatch.from_episode_list [episode] episode_hparams).toOption).map
    fun batch => batch.supports_len.data).getD []

/-- The queries_len entries of the single-episode batch built from one episode. -/
def singleQueriesLen (episode_hparams : EpisodeHParams) (episode : Episode) : List Nat :=
  (((EpisodeBatch.from_episode_list [episode] episode_hparams).toOption).map
    fun batch => batch.queries_len.data).getD []

/-- The cosine_targets entries of the single-episode batch built from one episode. -/
def singleCosineTargets (episode_hparams : EpisodeHParams) (episode : Episode) : List Int :=
  (((EpisodeBatch.from_episode_list [episode] episode_hparams).toOption).map
    fun batch => batch.cosine_targets.data).getD []

/-- The label_targets entries of the single-episode batch built from one episode. -/
def singleLabelTargets (episode_hparams : EpisodeHParams) (episode : Episode) : List Nat :=
  (((EpisodeBatch.from_episode_list [episode] episode_hparams).toOption).map
    fun batch => batch.label_targets.data).getD []

/-! ### General list lemmas -/

theorem sum_map_eq_length_mul {α : Type} (l : List α) (g : α → Nat) (k : Nat)
    (h : ∀ a ∈ l, g a = k) : (l.map g).sum = l.length * k := by
  induction l with
  | nil => simp
  | cons a t ih =>
    have ht : ∀ b ∈ t, g b = k := fun b hb => h b (List.mem_cons_of_mem a hb)
    simp only [List.map_cons, List.sum_cons, h a (List.mem_cons_self a t), ih ht,
      List.length_cons]
    ring

theorem flatMap_fixed_getElem? {α β : Type} (f : α → List β) (m : Nat) (l : List α)
    (hm : ∀ a ∈ l, (f a).length = m) (i j : Nat) (hi : i < l.length) (hj : j < m) (d : α) :
    (l.flatMap f)[i * m + j]? = (f (l.getD i d))[j]? := by
  induction l generalizing i with
  | nil => simp at hi
  | cons a t ih =>
    have ha : (f a).length = m := hm a (List.mem_cons_self a t)
    match i with
    | 0 =>
      rw [List.flatMap_cons, List.getD_cons_zero, Nat.zero_mul, Nat.zero_add,
        List.getElem?_append, if_pos (by omega)]
    | i + 1 =>
      have hkey : (i + 1) * m + j = (f a).length + (i * m + j) := by rw [ha]; ring
      rw [List.flatMap_cons, List.getD_cons_succ, hkey,
        List.getElem?_append_right (by omega), Nat.add_sub_cancel_left]
      exact ih (fun b hb => hm b (List.mem_cons_of_mem a hb)) i (by simpa using hi)

theorem toRows_nil {α : Type} (c : Nat) : toRows c ([] : List α) = [] := by
  simp [toRows]

theorem toRows_cons_exact {α : Type} (c : Nat) (hc : 0 < c) (row rest : List α)
    (hrow : row.length = c) :
    toRows c (row ++ rest) = row :: toRows c rest := by
  unfold toRows
  have hlen : (row ++ rest).length = rest.length + c := by
    simp [hrow, Nat.add_comm]
  rw [hlen, Nat.add_div_right _ hc, List.range_succ_eq_map]
  simp only [List.map_cons, Nat.zero_mul, List.drop_zero, List.map_map]
  congr 1
  · rw [← hrow, List.take_left]
  · apply List.map_congr_left
    intro r _
    have hshift : (r + 1) * c = row.length + r * c := by rw [hrow]; ring
    simp only [Function.comp_apply, hshift, List.drop_append]

theorem toRows_flatten_of_rows {α : Type} (c : Nat) (hc : 0 < c) (rows : List (List α))
    (h : ∀ r ∈ rows, r.length = c) : toRows c rows.flatten = rows := by
  induction rows with
  | nil => simpa using toRows_nil (α := α) c
  | cons row rest ih =>
    rw [List.flatten_cons,
      toRows_cons_exact c hc row rest.flatten (h row (List.mem_cons_self row rest)),
      ih fun r hr => h r (List.mem_cons_of_mem row hr)]

theorem toRows_append_of_dvd {α : Type} (c : Nat) (hc : 0 < c) :
    ∀ (n : Nat) (xs ys : List α), xs.length = n → c ∣ n →
      toRows c (xs ++ ys) = toRows c xs ++ toRows c ys := by
  intro n
  induction n using Nat.strong_induction_on with
  | _ n ih =>
    intro xs ys hlen hdvd
    rcases Nat.eq_zero_or_pos n with h0 | hpos
    · subst h0
      have hxs : xs = [] := List.length_eq_zero.mp hlen
      subst hxs
      simp [toRows_nil]
    · have hcle : c ≤ xs.length := by
        obtain ⟨k, hk⟩ := hdvd
        have hk0 : k ≠ 0 := by rintro rfl; omega
        have : c * 1 ≤ c * k := Nat.mul_le_mul_left c (by omega)
        omega
      have hxs_decomp : xs = xs.take c ++ xs.drop c := (List.take_append_drop c xs).symm
      have htake : (xs.take c).length = c := by rw [List.length_take]; omega
      have hdrop_len : (xs.drop c).length = n - c := by rw [List.length_drop, hlen]
      have hdvd2 : c ∣ (n - c) := Nat.dvd_sub' hdvd ⟨1, by ring⟩
      rw [hxs_decomp, List.append_assoc, toRows_cons_exact c hc _ _ htake,
        toRows_cons_exact c hc _ _ htake,
        ih (n - c) (by omega) (xs.drop c) ys hdrop_len hdvd2, List.cons_append]

theorem toRows_flatMap {α β : Type} (c : Nat) (hc : 0 < c) (l : List α) (f : α → List β)
    (h : ∀ a ∈ l, c ∣ (f a).length) :
    toRows c (l.flatMap f) = l.flatMap fun a => toRows c (f a) := by
  induction l with
  | nil => simp [toRows_nil]
  | cons a t ih =>
    rw [List.flatMap_cons, List.flatMap_cons,
      toRows_append_of_dvd c hc (f a).length (f a) (t.flatMap f) rfl
        (h a (List.mem_cons_self a t)),
      ih fun b hb => h b (List.mem_cons_of_mem a hb)]

theorem count_ite_row (labels : List Int) (qy : Int) (hnd : labels.Nodup)
    (hmem : qy ∈ labels) :
    (labels.map fun label => if qy = label then (1 : Int) else -1).count 1 = 1 ∧
    (labels.map fun label => if qy = label then (1 : Int) else -1).count (-1) =
      labels.length - 1 := by
  induction labels with
  | nil => simp at hmem
  | cons a t ih =>
    rw [List.nodup_cons] at hnd
    by_cases hqa : qy = a
    · have hqt : qy ∉ t := hqa ▸ hnd.1
      have hall : ∀ b ∈ t.map fun label => if qy = label then (1 : Int) else -1,
          b = -1 := by
        intro b hb
        obtain ⟨lab, hlab, rfl⟩ := List.mem_map.mp hb
        rw [if_neg (by rintro rfl; exact hqt hlab)]
      constructor
      · rw [List.map_cons, if_pos hqa, List.count_cons_self,
          List.count_eq_zero.mpr (fun h1 => by simpa using hall 1 h1)]
      · rw [List.map_cons, if_pos hqa, List.count_cons_of_ne (by decide),
          List.count_eq_length.mpr (fun b hb => (hall b hb).symm)]
        simp
    · have hqt : qy ∈ t := by
        rcases List.mem_cons.mp hmem with h | h
        · exact absurd h hqa
        · exact h
      have ht0 : 0 < t.length := List.length_pos.mpr (List.ne_nil_of_mem hqt)
      obtain ⟨ih1, ih2⟩ := ih hnd.2 hqt
      constructor
      · rw [List.map_cons, if_neg hqa, List.count_cons_of_ne (by decide), ih1]
      · rw [List.map_cons, if_neg hqa, List.count_cons_self, ih2]
        simp only [List.length_cons]
        omega

/-! ### Structural lemmas about from_episode_list -/

theorem except_isOk_exists {ε α : Type} {e : Except ε α} (h : e.isOk = true) :
    ∃ a, e = Except.ok a := by
  cases e with
  | error err => simp [Except.isOk, Except.toBool] at h
  | ok a => exact ⟨a, rfl⟩

theorem flatMap_ne_nil_of_mem {α β : Type} {f : α → List β} {l : List α} {a : α}
    (ha : a ∈ l) (hfa : f a ≠ []) : l.flatMap f ≠ [] := by
  obtain ⟨x, hx⟩ := List.exists_mem_of_ne_nil (f a) hfa
  exact List.ne_nil_of_mem (List.mem_flatMap.mpr ⟨a, ha, hx⟩)

theorem from_episode_list_fields (l : List Episode) (hp : EpisodeHParams)
    (b : EpisodeBatch) (hok : EpisodeBatch.from_episode_list l hp = Except.ok b) :
    b.supports.data = l.flatMap Episode.supports ∧
    b.queries.data = l.flatMap Episode.queries ∧
    b.labels.data = l.flatMap Episode.labels ∧
    b.episode_hparams = hp ∧
    b.assignment_vectors_support.data = (List.range l.length).map
      (fun i => List.replicate
        (hp.num_supports_per_class * hp.num_classes_per_episode) i) ∧
    b.assignment_vectors_queries.data = (List.range l.length).map
      (fun i => List.replicate
        (hp.num_queries_per_class * hp.num_classes_per_episode) i) ∧
    b.supports_len.data = l.map (fun ep => (ep.supports.map Data.num_nodes).sum) ∧
    b.queries_len.data = l.map (fun ep => (ep.queries.map Data.num_nodes).sum) ∧
    b.num_episodes = l.length ∧
    b.cosine_targets.data = cosinePieces l ∧
    b.label_targets.data =
      (toRows hp.num_classes_per_episode (cosinePieces l)).map argmaxIdx ∧
    cosinePieces l ≠ [] ∧
    0 < hp.num_classes_per_episode ∧
    (cosinePieces l).length % hp.num_classes_per_episode = 0 ∧
    0 < hp.num_supports_per_class ∧
    l.flatMap Episode.supports ≠ [] ∧
    l.flatMap Episode.queries ≠ [] := by
  unfold EpisodeBatch.from_episode_list at hok
  dsimp only at hok
  split at hok
  next h4 => exact absurd hok (by simp)
  next h4 =>
  split at hok
  next h5 => exact absurd hok (by simp)
  next h5 =>
  split at hok
  next h1 => exact absurd hok (by simp)
  next h1 =>
  split at hok
  next h2 => exact absurd hok (by simp)
  next h2 =>
  split at hok
  next h3 => exact absurd hok (by simp)
  next h3 =>
    rw [Except.ok.injEq] at hok
    subst hok
    push_neg at h2
    refine ⟨rfl, rfl, rfl, rfl, rfl, rfl, rfl, rfl, rfl, rfl, rfl,
      ?_, ?_, ?_, ?_, ?_, ?_⟩
    · intro hnil
      exact h1 (by simp [hnil])
    · exact Nat.pos_of_ne_zero h2.1
    · exact h2.2
    · rcases Nat.eq_zero_or_pos hp.num_supports_per_class with hK | hK
      · exact absurd (by rw [hK, Nat.zero_mul]) h3
      · exact hK
    · intro hnil
      exact h4 (by simp [hnil])
    · intro hnil
      exact h5 (by simp [hnil])

theorem from_episode_list_isOk_iff (l : List Episode) (hp : EpisodeHParams) :
    (EpisodeBatch.from_episode_list l hp).isOk = true ↔
      (l.flatMap Episode.supports ≠ [] ∧
       l.flatMap Episode.queries ≠ [] ∧
       cosinePieces l ≠ [] ∧ 0 < hp.num_classes_per_episode ∧
       (cosinePieces l).length % hp.num_classes_per_episode = 0 ∧
       0 < hp.num_supports_per_class) := by
  unfold EpisodeBatch.from_episode_list
  dsimp only
  split
  next h4 =>
    simp only [Except.isOk, Except.toBool]
    constructor
    · intro h; simp at h
    · rintro ⟨hns, _⟩
      exact absurd (List.isEmpty_iff.mp h4) hns
  next h4 =>
  split
  next h5 =>
    simp only [Except.isOk, Except.toBool]
    constructor
    · intro h; simp at h
    · rintro ⟨_, hnq, _⟩
      exact absurd (List.isEmpty_iff.mp h5) hnq
  next h5 =>
  split
  next h1 =>
    simp only [Except.isOk, Except.toBool]
    constructor
    · intro h; simp at h
    · rintro ⟨_, _, hne, _⟩
      exact absurd (List.isEmpty_iff.mp h1) hne
  next h1 =>
  split
  next h2 =>
    simp only [Except.isOk, Except.toBool]
    constructor
    · intro h; simp at h
    · rintro ⟨_, _, _, hC, hmod, _⟩
      rcases h2 with h2 | h2
      · exact ((by omega : False)).elim
      · exact absurd hmod h2
  next h2 =>
  split
  next h3 =>
    simp only [Except.isOk, Except.toBool]
    push_neg at h2
    constructor
    · intro h; simp at h
    · rintro ⟨_, _, _, _, _, hK⟩
      rcases Nat.mul_eq_zero.mp h3 with h | h
      · exact ((by omega : False)).elim
      · exact absurd h h2.1
  next h3 =>
    simp only [Except.isOk, Except.toBool]
    push_neg at h2
    constructor
    · intro _
      refine ⟨fun hnil => h4 (by simp [hnil]), fun hnil => h5 (by simp [hnil]),
        fun hnil => h1 (by simp [hnil]), Nat.pos_of_ne_zero h2.1, h2.2, ?_⟩
      rcases Nat.eq_zero_or_pos hp.num_supports_per_class with hK | hK
      · exact absurd (by rw [hK, Nat.zero_mul]) h3
      · exact hK
    · intro _; trivial

theorem cosinePieces_eq_flatMap (l : List Episode) :
    cosinePieces l = l.flatMap cosineBlock := rfl

theorem cosineBlock_eq_flatten (ep : Episode) :
    cosineBlock ep = (cosineRows ep).flatten := by
  unfold cosineBlock cosineRows
  rw [List.flatMap_def]

theorem cosineBlock_length (ep : Episode) :
    (cosineBlock ep).length = ep.queries.length * ep.labels.length := by
  unfold cosineBlock
  rw [List.length_flatMap]
  exact sum_map_eq_length_mul _ _ _ fun q _ => by
    simp only [Function.comp_apply, List.length_map]

theorem cosinePieces_length (l : List Episode) (hp : EpisodeHParams)
    (hwf : ∀ ep ∈ l, ep.labels.length = hp.num_classes_per_episode ∧
      ep.queries.length = hp.num_classes_per_episode * hp.num_queries_per_class) :
    (cosinePieces l).length = l.length * (hp.num_classes_per_episode *
      hp.num_queries_per_class * hp.num_classes_per_episode) := by
  rw [cosinePieces_eq_flatMap, List.length_flatMap]
  apply sum_map_eq_length_mul
  intro ep hep
  simp only [Function.comp_apply, cosineBlock_length, (hwf ep hep).1, (hwf ep hep).2]

theorem getD_map_range {α : Type} (B : Nat) (f : Nat → α) (e : Nat) (he : e < B)
    (d : α) : ((List.range B).map f).getD e d = f e := by
  rw [List.getD_eq_getElem?_getD, List.getElem?_map, List.getElem?_range he]
  rfl

theorem map_getD_range {α : Type} [Inhabited α] (l : List α) :
    (List.range l.length).map (fun i => l.getD i default) = l := by
  apply List.ext_getElem
  · simp
  · intro i h1 h2
    simp only [List.getElem_map, List.getElem_range]
    rw [List.getD_eq_getElem?_getD, List.getElem?_eq_getElem h2]
    rfl

/-! ### Lemmas about the label-to-index dict -/

theorem find?_map_snd_of_key {pairs : List (Int × Nat)} {y : Int} {v : Nat}
    (hmem : (y, v) ∈ pairs) (huniq : ∀ p ∈ pairs, p.1 = y → p.2 = v) :
    (pairs.find? fun p => p.1 == y).map Prod.snd = some v := by
  induction pairs with
  | nil => simp at hmem
  | cons p t ih =>
    by_cases hp : p.1 = y
    · rw [List.find?_cons_of_pos _ (by simpa using hp)]
      simp [huniq p (List.mem_cons_self p t) hp]
    · rw [List.find?_cons_of_neg _ (by simpa using hp)]
      apply ih
      · rcases List.mem_cons.mp hmem with h | h
        · exact absurd (by rw [← h]) hp
        · exact h
      · exact fun q hq => huniq q (List.mem_cons_of_mem p hq)

theorem dictLookup_of_key {pairs : List (Int × Nat)} {y : Int} {v : Nat}
    (hmem : (y, v) ∈ pairs) (huniq : ∀ p ∈ pairs, p.1 = y → p.2 = v) :
    dictLookup pairs y = some v := by
  unfold dictLookup
  exact find?_map_snd_of_key (List.mem_reverse.mpr hmem)
    fun p hp => huniq p (List.mem_reverse.mp hp)

theorem mapping_mem (ls : List Int) (i : Nat) (hi : i < ls.length) :
    (ls[i], i) ∈ ls.enum.map (fun q => (q.2, q.1)) := by
  apply List.mem_map.mpr
  refine ⟨(i, ls[i]), ?_, rfl⟩
  have hlen : i < ls.enum.length := by simpa using hi
  have : ls.enum[i] = (i, ls[i]) := List.getElem_enum ls i hlen
  rw [← this]
  exact List.getElem_mem hlen

theorem mapping_uniq (ls : List Int) (hnd : ls.Nodup) (y : Int) :
    ∀ p ∈ ls.enum.map (fun q => (q.2, q.1)), p.1 = y → p.2 = ls.indexOf y := by
  intro p hp hkey
  obtain ⟨q, hq, rfl⟩ := List.mem_map.mp hp
  obtain ⟨hlt, hx⟩ := List.mem_enum (show (q.1, q.2) ∈ ls.enum by simpa using hq)
  have hval : ls[q.1] = y := by rw [← hx]; exact hkey
  have := List.indexOf_getElem hnd q.1 hlt
  rw [hval] at this
  exact this.symm

theorem dictLookup_mapping (ls : List Int) (hnd : ls.Nodup) (y : Int) (hy : y ∈ ls) :
    dictLookup (ls.enum.map fun q => (q.2, q.1)) y = some (ls.indexOf y) := by
  apply dictLookup_of_key
  · have hidx : ls.indexOf y < ls.length := List.indexOf_lt_length.mpr hy
    have hget : ls[ls.indexOf y] = y := List.getElem_indexOf hidx
    have := mapping_mem ls (ls.indexOf y) hidx
    rwa [hget] at this
  · exact mapping_uniq ls hnd y

theorem dictLookup_mapping_at (ls : List Int) (hnd : ls.Nodup) (i : Nat)
    (hi : i < ls.length) :
    dictLookup (ls.enum.map fun q => (q.2, q.1)) (ls.getD i 0) = some i := by
  have hgd : ls.getD i 0 = ls[i] := by
    rw [List.getD_eq_getElem?_getD, List.getElem?_eq_getElem hi]
    rfl
  rw [hgd, dictLookup_mapping ls hnd _ (List.getElem_mem hi),
    List.indexOf_getElem hnd i hi]

theorem pySorted_length (l : List Int) : (pySorted l).length = l.length := by
  unfold pySorted
  exact List.length_insertionSort _ _

theorem mapM_ok {α β : Type} (f : α → Except PyErr β) (g : α → β) (l : List α)
    (h : ∀ a ∈ l, f a = Except.ok (g a)) : l.mapM f = Except.ok (l.map g) := by
  induction l with
  | nil => rfl
  | cons a t ih =>
    rw [List.mapM_cons, h a (List.mem_cons_self a t),
      ih fun b hb => h b (List.mem_cons_of_mem a hb)]
    rfl

example : (cosinePieces [⟨[], [⟨3, 5⟩, ⟨2, 7⟩], [5, 7], ⟨2, 1, 1⟩⟩]) =
    [1, -1, -1, 1] := by decide

example : (EpisodeBatch.from_episode_list [⟨[⟨1, 5⟩, ⟨1, 7⟩], [⟨3, 5⟩, ⟨2, 7⟩], [5, 7], ⟨2, 1, 1⟩⟩]
    ⟨2, 1, 1⟩).isOk = true := by decide

example : toRows 2 [1, -1, -1, 1] = [[1, -1], [-1, 1]] := by decide

example : argmaxIdx [-1, 1] = 1 := by decide

/-! ### Assignment-vector helper lemmas -/

theorem assignment_flatten_length (B m : Nat) :
    ((List.range B).map fun i => List.replicate m i).flatten.length = B * m := by
  rw [List.length_flatten, List.map_map,
    sum_map_eq_length_mul (List.range B) _ m (fun a _ => by simp [Function.comp]),
    List.length_range]

theorem assignment_flatten_getD (B m j : Nat) (hj : j < B * m) :
    ((List.range B).map fun i => List.replicate m i).flatten.getD j 0 = j / m := by
  have hm : 0 < m := by
    rcases Nat.eq_zero_or_pos m with h | h
    · subst h; omega
    · exact h
  have hdiv : j / m < B := by
    rw [Nat.div_lt_iff_lt_mul hm]
    omega
  have hmod : j % m < m := Nat.mod_lt j hm
  have hsplit : (j / m) * m + j % m = j := by
    rw [Nat.mul_comm]
    exact Nat.div_add_mod j m
  have hflat : ((List.range B).map fun i => List.replicate m i).flatten =
      (List.range B).flatMap fun i => List.replicate m i :=
    (List.flatMap_def _ _).symm
  have hget := flatMap_fixed_getElem? (fun i => List.replicate m i) m (List.range B)
    (fun a _ => by simp) (j / m) (j % m) (by simpa using hdiv) hmod 0
  have hrange : (List.range B).getD (j / m) 0 = j / m := by
    rw [List.getD_eq_getElem?_getD, List.getElem?_range hdiv]
    rfl
  rw [hflat, List.getD_eq_getElem?_getD]
  conv_lhs => rw [← hsplit]
  rw [hget, hrange, List.getElem?_replicate, if_pos hmod]
  rfl

/-! ### Claim theorems -/

/-- C10: EpisodeBatch.to updates only the fields supports, queries,
cosine_targets, label_targets and labels, moving exactly those to the target
device; assignment_vectors, supports_len, queries_len, num_episodes,
batch_size and episode_hparams are left unchanged, and in particular are not
transferred to the device. -/
theorem c10_to_updates_only_tensor_fields (batch : EpisodeBatch) (device : String) :
    ((batch.to device).supports.data = batch.supports.data ∧
      (batch.to device).supports.device = device) ∧
    ((batch.to device).queries.data = batch.queries.data ∧
      (batch.to device).queries.device = device) ∧
    ((batch.to device).cosine_targets.data = batch.cosine_targets.data ∧
      (batch.to device).cosine_targets.device = device) ∧
    ((batch.to device).label_targets.data = batch.label_targets.data ∧
      (batch.to device).label_targets.device = device) ∧
    ((batch.to device).labels.data = batch.labels.data ∧
      (batch.to device).labels.device = device) ∧
    (batch.to device).assignment_vectors_support = batch.assignment_vectors_support ∧
    (batch.to device).assignment_vectors_queries = batch.assignment_vectors_queries ∧
    (batch.to device).supports_len = batch.supports_len ∧
    (batch.to device).queries_len = batch.queries_len ∧
    (batch.to device).num_episodes = batch.num_episodes ∧
    (batch.to device).batch_size = batch.batch_size ∧
    (batch.to device).episode_hparams = batch.episode_hparams :=
  ⟨⟨rfl, rfl⟩, ⟨rfl, rfl⟩, ⟨rfl, rfl⟩, ⟨rfl, rfl⟩, ⟨rfl, rfl⟩,
    rfl, rfl, rfl, rfl, rfl, rfl, rfl⟩

/-- C4 (code bug): MetaData.save raises AttributeError on every MetaData,
because the EpisodeHParams dataclass declares no as_dict method, so the
save-then-load round trip claimed by the documentation can never succeed. -/
theorem c4_metadata_save_always_raises (m : MetaData) :
    MetaData.save m = Except.error (PyErr.attributeError
      "EpisodeHParams object has no attribute as_dict") := rfl

/-- C6 counterexample: constructed with no classes split supplied, obtaining
the classes split raises NotImplementedError, not ConfigurationError as the
claim states. -/
theorem c6_counterexample :
    get_classes_split none = Except.error PyErr.notImplementedError ∧
    get_classes_split none ≠ Except.error PyErr.configurationError := by
  refine ⟨rfl, fun h => ?_⟩
  rw [show get_classes_split none = Except.error PyErr.notImplementedError from rfl,
    Except.error.injEq] at h
  exact PyErr.noConfusion h

/-- C6 (amended): when no classes split is supplied, obtaining the classes
split fails with NotImplementedError, raised from get_classes_split which the
datamodule constructor calls (hence before any training starts); no split is
auto-derived.  When a split file is supplied its parsed content is returned. -/
theorem c6_no_split_raises_not_implemented :
    get_classes_split none = Except.error PyErr.notImplementedError ∧
    ∀ parsed_split_file, get_classes_split (some parsed_split_file) =
      Except.ok parsed_split_file :=
  ⟨rfl, fun _ => rfl⟩

/-- C5 counterexample: an episode whose supports list has length 1 although
N*K = 2*2 = 4 (queries and labels well-formed): from_episode_list succeeds on
it — no ShapeMismatchError (or any error) is raised. -/
theorem c5_counterexample :
    (EpisodeBatch.from_episode_list
      [⟨[⟨1, 5⟩], [⟨3, 5⟩, ⟨2, 7⟩], [5, 7], ⟨2, 2, 1⟩⟩] ⟨2, 2, 1⟩).isOk = true ∧
    (⟨[⟨1, 5⟩], [⟨3, 5⟩, ⟨2, 7⟩], [5, 7], ⟨2, 2, 1⟩⟩ : Episode).supports.length ≠
      (⟨2, 2, 1⟩ : EpisodeHParams).num_classes_per_episode *
        (⟨2, 2, 1⟩ : EpisodeHParams).num_supports_per_class := by
  exact ⟨by decide, by decide⟩

/-- C5 (amended): from_episode_list performs no supports/queries length
validation and never raises a ShapeMismatchError: it succeeds exactly when
the concatenated supports and queries lists are non-empty (otherwise
Batch.from_data_list raises IndexError at episode.py line 66 or 67), the
concatenated cosine-target list is non-empty (torch.cat), N is positive and
divides that length (reshape), and K is positive (batch_size division) —
independently of whether any episode's supports/queries lengths match
N*K / N*Q; any error it does raise is never ShapeMismatchError. -/
theorem c5_no_shape_validation (episode_list : List Episode)
    (episode_hparams : EpisodeHParams) :
    ((EpisodeBatch.from_episode_list episode_list episode_hparams).isOk = true ↔
      (episode_list.flatMap Episode.supports ≠ [] ∧
       episode_list.flatMap Episode.queries ≠ [] ∧
       cosinePieces episode_list ≠ [] ∧
       0 < episode_hparams.num_classes_per_episode ∧
       (cosinePieces episode_list).length %
         episode_hparams.num_classes_per_episode = 0 ∧
       0 < episode_hparams.num_supports_per_class)) ∧
    ∀ e : PyErr, EpisodeBatch.from_episode_list episode_list episode_hparams =
      Except.error e → e ≠ PyErr.shapeMismatchError := by
  refine ⟨from_episode_list_isOk_iff episode_list episode_hparams, ?_⟩
  intro e he
  unfold EpisodeBatch.from_episode_list at he
  dsimp only at he
  split at he
  next => rw [Except.error.injEq] at he; subst he; exact fun h => PyErr.noConfusion h
  next =>
  split at he
  next => rw [Except.error.injEq] at he; subst he; exact fun h => PyErr.noConfusion h
  next =>
  split at he
  next => rw [Except.error.injEq] at he; subst he; exact fun h => PyErr.noConfusion h
  next =>
  split at he
  next => rw [Except.error.injEq] at he; subst he; exact fun h => PyErr.noConfusion h
  next =>
  split at he
  next => rw [Except.error.injEq] at he; subst he; exact fun h => PyErr.noConfusion h
  next => exact absurd he (by simp)

/-- C5 witness for the amended theorem: instantiated at the counterexample
input (supports length 1 with N*K = 4), on which the success conditions hold. -/
theorem c5_witness :
    ((EpisodeBatch.from_episode_list
        [⟨[⟨1, 5⟩], [⟨3, 5⟩, ⟨2, 7⟩], [5, 7], ⟨2, 2, 1⟩⟩] ⟨2, 2, 1⟩).isOk = true ↔
      (([⟨[⟨1, 5⟩], [⟨3, 5⟩, ⟨2, 7⟩], [5, 7], ⟨2, 2, 1⟩⟩] : List Episode).flatMap
        Episode.supports ≠ [] ∧
       ([⟨[⟨1, 5⟩], [⟨3, 5⟩, ⟨2, 7⟩], [5, 7], ⟨2, 2, 1⟩⟩] : List Episode).flatMap
        Episode.queries ≠ [] ∧
       cosinePieces [⟨[⟨1, 5⟩], [⟨3, 5⟩, ⟨2, 7⟩], [5, 7], ⟨2, 2, 1⟩⟩] ≠ [] ∧
       0 < (⟨2, 2, 1⟩ : EpisodeHParams).num_classes_per_episode ∧
       (cosinePieces [⟨[⟨1, 5⟩], [⟨3, 5⟩, ⟨2, 7⟩], [5, 7], ⟨2, 2, 1⟩⟩]).length %
         (⟨2, 2, 1⟩ : EpisodeHParams).num_classes_per_episode = 0 ∧
       0 < (⟨2, 2, 1⟩ : EpisodeHParams).num_supports_per_class)) ∧
    ∀ e : PyErr, EpisodeBatch.from_episode_list
        [⟨[⟨1, 5⟩], [⟨3, 5⟩, ⟨2, 7⟩], [5, 7], ⟨2, 2, 1⟩⟩] ⟨2, 2, 1⟩ =
      Except.error e → e ≠ PyErr.shapeMismatchError :=
  c5_no_shape_validation _ _

/-- C7: whenever from_episode_list produces a batch, its support assignment
vector consists of B constant blocks of size N*K whose b-th block is all b
(so the flattened vector has length B*N*K and its j-th entry is j / (N*K),
the episode index owning flattened graph j), and likewise for queries with
block size N*Q. -/
theorem c7_assignment_vectors (episode_list : List Episode)
    (episode_hparams : EpisodeHParams) (batch : EpisodeBatch)
    (hok : EpisodeBatch.from_episode_list episode_list episode_hparams =
      Except.ok batch) :
    batch.assignment_vectors_support.data.flatten.length =
      episode_list.length * (episode_hparams.num_supports_per_class *
        episode_hparams.num_classes_per_episode) ∧
    batch.assignment_vectors_queries.data.flatten.length =
      episode_list.length * (episode_hparams.num_queries_per_class *
        episode_hparams.num_classes_per_episode) ∧
    (∀ e, e < episode_list.length →
      batch.assignment_vectors_support.data.getD e [] =
        List.replicate (episode_hparams.num_supports_per_class *
          episode_hparams.num_classes_per_episode) e) ∧
    (∀ e, e < episode_list.length →
      batch.assignment_vectors_queries.data.getD e [] =
        List.replicate (episode_hparams.num_queries_per_class *
          episode_hparams.num_classes_per_episode) e) ∧
    (∀ j, j < episode_list.length * (episode_hparams.num_supports_per_class *
        episode_hparams.num_classes_per_episode) →
      batch.assignment_vectors_support.data.flatten.getD j 0 =
        j / (episode_hparams.num_supports_per_class *
          episode_hparams.num_classes_per_episode)) ∧
    (∀ j, j < episode_list.length * (episode_hparams.num_queries_per_class *
        episode_hparams.num_classes_per_episode) →
      batch.assignment_vectors_queries.data.flatten.getD j 0 =
        j / (episode_hparams.num_queries_per_class *
          episode_hparams.num_classes_per_episode)) := by
  obtain ⟨-, -, -, -, hs, hq, -, -, -, -, -, -, -, -, -, -, -⟩ :=
    from_episode_list_fields _ _ _ hok
  rw [hs, hq]
  refine ⟨assignment_flatten_length _ _, assignment_flatten_length _ _,
    ?_, ?_, ?_, ?_⟩
  · exact fun e he => getD_map_range _ _ e he []
  · exact fun e he => getD_map_range _ _ e he []
  · exact fun j hj => assignment_flatten_getD _ _ j hj
  · exact fun j hj => assignment_flatten_getD _ _ j hj

/-- C7 witness: two concrete episodes with N=2, K=1, Q=1: block 1 of the
support assignment vector is [1, 1] and flattened entry 3 maps to episode
3 / 2 = 1. -/
theorem c7_witness : ∃ batch,
    EpisodeBatch.from_episode_list
      [⟨[⟨1, 5⟩, ⟨1, 7⟩], [⟨3, 5⟩, ⟨2, 7⟩], [5, 7], ⟨2, 1, 1⟩⟩,
       ⟨[⟨2, 5⟩, ⟨2, 7⟩], [⟨1, 7⟩, ⟨1, 5⟩], [5, 7], ⟨2, 1, 1⟩⟩] ⟨2, 1, 1⟩ =
      Except.ok batch ∧
    batch.assignment_vectors_support.data.getD 1 [] = List.replicate 2 1 ∧
    batch.assignment_vectors_support.data.flatten.getD 3 0 = 1 := by
  have h := c7_assignment_vectors
    [⟨[⟨1, 5⟩, ⟨1, 7⟩], [⟨3, 5⟩, ⟨2, 7⟩], [5, 7], ⟨2, 1, 1⟩⟩,
     ⟨[⟨2, 5⟩, ⟨2, 7⟩], [⟨1, 7⟩, ⟨1, 5⟩], [5, 7], ⟨2, 1, 1⟩⟩] ⟨2, 1, 1⟩ _ rfl
  exact ⟨_, rfl, h.2.2.1 1 (by decide), h.2.2.2.2.1 3 (by decide)⟩

/-- C1: for a list of episodes each carrying N chosen labels and N*Q queries
(the data-model invariant), the cosine_targets produced by from_episode_list
has length B*N*Q*N and is ordered episode-major, query-major, class-minor:
the entry at index e*(N*Q*N) + q*N + c is +1 if query q's true label equals
episode e's c-th chosen (global) label, and -1 otherwise. -/
theorem c1_cosine_targets_layout (episode_list : List Episode)
    (episode_hparams : EpisodeHParams) (batch : EpisodeBatch)
    (hok : EpisodeBatch.from_episode_list episode_list episode_hparams =
      Except.ok batch)
    (hwf : ∀ ep ∈ episode_list,
      ep.labels.length = episode_hparams.num_classes_per_episode ∧
      ep.queries.length = episode_hparams.num_classes_per_episode *
        episode_hparams.num_queries_per_class) :
    batch.cosine_targets.data.length = episode_list.length *
      (episode_hparams.num_classes_per_episode *
        episode_hparams.num_queries_per_class *
        episode_hparams.num_classes_per_episode) ∧
    ∀ e q c, e < episode_list.length →
      q < episode_hparams.num_classes_per_episode *
        episode_hparams.num_queries_per_class →
      c < episode_hparams.num_classes_per_episode →
      batch.cosine_targets.data[e * (episode_hparams.num_classes_per_episode *
          episode_hparams.num_queries_per_class *
          episode_hparams.num_classes_per_episode) +
        q * episode_hparams.num_classes_per_episode + c]? =
        some (if ((episode_list.getD e default).queries.getD q default).y =
            (episode_list.getD e default).labels.getD c 0 then 1 else -1) := by
  obtain ⟨-, -, -, -, -, -, -, -, -, hcos, -, -, -, -, -, -, -⟩ :=
    from_episode_list_fields _ _ _ hok
  rw [hcos]
  refine ⟨cosinePieces_length _ _ hwf, ?_⟩
  intro e q c he hq hc
  have C := episode_hparams.num_classes_per_episode
  have hbound : q * episode_hparams.num_classes_per_episode + c <
      episode_hparams.num_classes_per_episode *
        episode_hparams.num_queries_per_class *
        episode_hparams.num_classes_per_episode := by
    have h1 : q * episode_hparams.num_classes_per_episode + c <
        (q + 1) * episode_hparams.num_classes_per_episode := by
      rw [Nat.add_mul, Nat.one_mul]
      omega
    have h2 : (q + 1) * episode_hparams.num_classes_per_episode ≤
        episode_hparams.num_classes_per_episode *
          episode_hparams.num_queries_per_class *
          episode_hparams.num_classes_per_episode :=
      Nat.mul_le_mul_right _ (by omega)
    omega
  have hassoc : e * (episode_hparams.num_classes_per_episode *
        episode_hparams.num_queries_per_class *
        episode_hparams.num_classes_per_episode) +
      q * episode_hparams.num_classes_per_episode + c =
      e * (episode_hparams.num_classes_per_episode *
        episode_hparams.num_queries_per_class *
        episode_hparams.num_classes_per_episode) +
      (q * episode_hparams.num_classes_per_episode + c) := by omega
  rw [cosinePieces_eq_flatMap, hassoc,
    flatMap_fixed_getElem? cosineBlock
      (episode_hparams.num_classes_per_episode *
        episode_hparams.num_queries_per_class *
        episode_hparams.num_classes_per_episode)
      episode_list
      (fun ep hep => by
        rw [cosineBlock_length, (hwf ep hep).1, (hwf ep hep).2])
      e (q * episode_hparams.num_classes_per_episode + c) he hbound default]
  have hmem : episode_list.getD e default ∈ episode_list := by
    have hgd : episode_list.getD e default = episode_list[e] := by
      rw [List.getD_eq_getElem?_getD, List.getElem?_eq_getElem he]
      rfl
    rw [hgd]
    exact List.getElem_mem he
  have hlab : (episode_list.getD e default).labels.length =
      episode_hparams.num_classes_per_episode := (hwf _ hmem).1
  have hque : (episode_list.getD e default).queries.length =
      episode_hparams.num_classes_per_episode *
        episode_hparams.num_queries_per_class := (hwf _ hmem).2
  unfold cosineBlock
  rw [flatMap_fixed_getElem?
      (fun query => (episode_list.getD e default).labels.map
        fun label => if query.y = label then (1 : Int) else -1)
      episode_hparams.num_classes_per_episode
      (episode_list.getD e default).queries
      (fun qq _ => by rw [List.length_map, hlab])
      q c (by omega) hc default]
  rw [List.getElem?_map, List.getElem?_eq_getElem (by omega : c <
    (episode_list.getD e default).labels.length)]
  have hlgd : (episode_list.getD e default).labels.getD c 0 =
      (episode_list.getD e default).labels[c] := by
    rw [List.getD_eq_getElem?_getD,
      List.getElem?_eq_getElem (by omega : c <
        (episode_list.getD e default).labels.length)]
    rfl
  rw [hlgd]
  rfl

/-- C1 witness: one episode with N=2, K=1, Q=1: queries have labels 5, 7 and
the chosen labels are [5, 7]; cosine_targets is [1, -1, -1, 1], of length
1*2*1*2 = 4, and the entry for (episode 0, query 1, class 0) is -1. -/
theorem c1_witness : ∃ batch,
    EpisodeBatch.from_episode_list
      [⟨[⟨1, 5⟩, ⟨1, 7⟩], [⟨3, 5⟩, ⟨2, 7⟩], [5, 7], ⟨2, 1, 1⟩⟩] ⟨2, 1, 1⟩ =
      Except.ok batch ∧
    batch.cosine_targets.data.length = 4 ∧
    batch.cosine_targets.data[2]? = some (-1) := by
  have h := c1_cosine_targets_layout
    [⟨[⟨1, 5⟩, ⟨1, 7⟩], [⟨3, 5⟩, ⟨2, 7⟩], [5, 7], ⟨2, 1, 1⟩⟩] ⟨2, 1, 1⟩ _ rfl
    (by decide)
  exact ⟨_, rfl, h.1, h.2 0 1 0 (by decide) (by decide) (by decide)⟩

/-- Reshaping one episode's cosine block into width-N rows recovers the
per-query rows. -/
theorem toRows_cosineBlock (ep : Episode) (c : Nat) (hc : 0 < c)
    (hlab : ep.labels.length = c) :
    toRows c (cosineBlock ep) = cosineRows ep := by
  rw [cosineBlock_eq_flatten]
  exact toRows_flatten_of_rows c hc _ fun r hr => by
    obtain ⟨q, hq, rfl⟩ := List.mem_map.mp hr
    rw [List.length_map, hlab]

/-- C2: for episodes with N distinct labels each, N*Q queries each, and every
query's true label among its episode's chosen labels, reshaping
cosine_targets to (B*N*Q, N) and taking the per-row argmax reproduces
label_targets exactly, and every row holds exactly one +1 and N-1 entries
equal to -1. -/
theorem c2_cosine_round_trip (episode_list : List Episode)
    (episode_hparams : EpisodeHParams) (batch : EpisodeBatch)
    (hok : EpisodeBatch.from_episode_list episode_list episode_hparams =
      Except.ok batch)
    (hwf : ∀ ep ∈ episode_list,
      ep.labels.length = episode_hparams.num_classes_per_episode ∧
      ep.labels.Nodup ∧
      ep.queries.length = episode_hparams.num_classes_per_episode *
        episode_hparams.num_queries_per_class ∧
      ∀ query ∈ ep.queries, query.y ∈ ep.labels) :
    batch.label_targets.data =
      (toRows episode_hparams.num_classes_per_episode
        batch.cosine_targets.data).map argmaxIdx ∧
    (toRows episode_hparams.num_classes_per_episode
      batch.cosine_targets.data).length =
      episode_list.length * (episode_hparams.num_classes_per_episode *
        episode_hparams.num_queries_per_class) ∧
    ∀ row ∈ toRows episode_hparams.num_classes_per_episode
        batch.cosine_targets.data,
      row.count 1 = 1 ∧
      row.count (-1) = episode_hparams.num_classes_per_episode - 1 := by
  obtain ⟨-, -, -, -, -, -, -, -, -, hcos, hlabt, -, hC, -, -, -, -⟩ :=
    from_episode_list_fields _ _ _ hok
  rw [hcos, hlabt]
  have hrows : toRows episode_hparams.num_classes_per_episode
      (cosinePieces episode_list) = episode_list.flatMap cosineRows := by
    rw [cosinePieces_eq_flatMap,
      toRows_flatMap _ hC episode_list cosineBlock fun ep hep => by
        rw [cosineBlock_length, (hwf ep hep).1]
        exact Nat.dvd_mul_left _ _]
    rw [List.flatMap_def, List.flatMap_def, List.map_congr_left
      fun ep hep => toRows_cosineBlock ep _ hC (hwf ep hep).1]
  refine ⟨rfl, ?_, ?_⟩
  · rw [hrows, List.length_flatMap]
    apply sum_map_eq_length_mul
    intro ep hep
    simp only [Function.comp_apply, cosineRows, List.length_map,
      (hwf ep hep).2.2.1]
  · rw [hrows]
    intro row hrow
    obtain ⟨ep, hep, hr⟩ := List.mem_flatMap.mp hrow
    obtain ⟨q, hq, rfl⟩ := List.mem_map.mp hr
    obtain ⟨h1, h2⟩ := count_ite_row ep.labels q.y (hwf ep hep).2.1
      ((hwf ep hep).2.2.2 q hq)
    exact ⟨h1, by rw [h2, (hwf ep hep).1]⟩

/-- C2 witness: the concrete episode of the C1 witness: label_targets is the
row-wise argmax of the reshape, there are 2 rows, and each row has one +1 and
one -1. -/
theorem c2_witness : ∃ batch,
    EpisodeBatch.from_episode_list
      [⟨[⟨1, 5⟩, ⟨1, 7⟩], [⟨3, 5⟩, ⟨2, 7⟩], [5, 7], ⟨2, 1, 1⟩⟩] ⟨2, 1, 1⟩ =
      Except.ok batch ∧
    batch.label_targets.data =
      (toRows 2 batch.cosine_targets.data).map argmaxIdx ∧
    (toRows 2 batch.cosine_targets.data).length = 2 ∧
    ∀ row ∈ toRows 2 batch.cosine_targets.data,
      row.count 1 = 1 ∧ row.count (-1) = 1 := by
  have h := c2_cosine_round_trip
    [⟨[⟨1, 5⟩, ⟨1, 7⟩], [⟨3, 5⟩, ⟨2, 7⟩], [5, 7], ⟨2, 1, 1⟩⟩] ⟨2, 1, 1⟩ _ rfl
    (by decide)
  exact ⟨_, rfl, h.1, h.2.1, h.2.2⟩

/-- A single well-formed episode collates successfully, and the four
per-episode tensor extracts take their expected values. -/
theorem single_episode_fields (hp : EpisodeHParams) (ep : Episode)
    (hC : 0 < hp.num_classes_per_episode) (hK : 0 < hp.num_supports_per_class)
    (hlab : ep.labels.length = hp.num_classes_per_episode)
    (hs0 : 0 < ep.supports.length) (hq0 : 0 < ep.queries.length) :
    (EpisodeBatch.from_episode_list [ep] hp).isOk = true ∧
    singleSupportsLen hp ep = [(ep.supports.map Data.num_nodes).sum] ∧
    singleQueriesLen hp ep = [(ep.queries.map Data.num_nodes).sum] ∧
    singleCosineTargets hp ep = cosineBlock ep ∧
    singleLabelTargets hp ep =
      (toRows hp.num_classes_per_episode (cosineBlock ep)).map argmaxIdx := by
  have hpieces : cosinePieces [ep] = cosineBlock ep := by
    rw [cosinePieces_eq_flatMap]
    simp
  have hlen : (cosineBlock ep).length = ep.queries.length * ep.labels.length :=
    cosineBlock_length ep
  have hpos : 0 < (cosineBlock ep).length := by
    rw [hlen, hlab]
    exact Nat.mul_pos hq0 hC
  have hisok : (EpisodeBatch.from_episode_list [ep] hp).isOk = true := by
    rw [from_episode_list_isOk_iff]
    refine ⟨flatMap_ne_nil_of_mem (List.mem_cons_self ep [])
        (List.length_pos.mp hs0),
      flatMap_ne_nil_of_mem (List.mem_cons_self ep []) (List.length_pos.mp hq0),
      by rw [hpieces]; exact List.length_pos.mp hpos, hC, ?_, hK⟩
    rw [hpieces]
    apply Nat.dvd_iff_mod_eq_zero.mp
    rw [hlen, hlab]
    exact Dvd.dvd.mul_left (Nat.dvd_refl _) _
  obtain ⟨b, hok⟩ := except_isOk_exists hisok
  obtain ⟨-, -, -, -, -, -, hsl, hql, -, hct, hlt, -, -, -, -, -, -⟩ :=
    from_episode_list_fields _ _ _ hok
  refine ⟨hisok, ?_, ?_, ?_, ?_⟩
  · unfold singleSupportsLen
    rw [hok]
    show b.supports_len.data = _
    rw [hsl]
    rfl
  · unfold singleQueriesLen
    rw [hok]
    show b.queries_len.data = _
    rw [hql]
    rfl
  · unfold singleCosineTargets
    rw [hok]
    show b.cosine_targets.data = _
    rw [hct, hpieces]
  · unfold singleLabelTargets
    rw [hok]
    show b.label_targets.data = _
    rw [hlt, hpieces]

/-- C3: the EpisodeBatch built from B well-formed episodes at once agrees,
field-for-field on supports_len, queries_len, cosine_targets and
label_targets, with the concatenation in episode order of the corresponding
fields of the B single-episode EpisodeBatches (each of which also builds
successfully). -/
theorem c3_collation_concat (episode_list : List Episode)
    (episode_hparams : EpisodeHParams)
    (hne : episode_list ≠ [])
    (hC : 0 < episode_hparams.num_classes_per_episode)
    (hK : 0 < episode_hparams.num_supports_per_class)
    (hQ : 0 < episode_hparams.num_queries_per_class)
    (hwf : ∀ ep ∈ episode_list,
      ep.supports.length = episode_hparams.num_classes_per_episode *
        episode_hparams.num_supports_per_class ∧
      ep.queries.length = episode_hparams.num_classes_per_episode *
        episode_hparams.num_queries_per_class ∧
      ep.labels.length = episode_hparams.num_classes_per_episode) :
    ∃ batch, EpisodeBatch.from_episode_list episode_list episode_hparams =
      Except.ok batch ∧
    (∀ ep ∈ episode_list,
      (EpisodeBatch.from_episode_list [ep] episode_hparams).isOk = true) ∧
    batch.supports_len.data =
      (episode_list.map (singleSupportsLen episode_hparams)).flatten ∧
    batch.queries_len.data =
      (episode_list.map (singleQueriesLen episode_hparams)).flatten ∧
    batch.cosine_targets.data =
      (episode_list.map (singleCosineTargets episode_hparams)).flatten ∧
    batch.label_targets.data =
      (episode_list.map (singleLabelTargets episode_hparams)).flatten := by
  have hsingle : ∀ ep ∈ episode_list,
      (EpisodeBatch.from_episode_list [ep] episode_hparams).isOk = true ∧
      singleSupportsLen episode_hparams ep =
        [(ep.supports.map Data.num_nodes).sum] ∧
      singleQueriesLen episode_hparams ep =
        [(ep.queries.map Data.num_nodes).sum] ∧
      singleCosineTargets episode_hparams ep = cosineBlock ep ∧
      singleLabelTargets episode_hparams ep =
        (toRows episode_hparams.num_classes_per_episode (cosineBlock ep)).map
          argmaxIdx := by
    intro ep hep
    exact single_episode_fields episode_hparams ep hC hK (hwf ep hep).2.2
      (by rw [(hwf ep hep).1]; exact Nat.mul_pos hC hK)
      (by rw [(hwf ep hep).2.1]; exact Nat.mul_pos hC hQ)
  have hlen : (cosinePieces episode_list).length = episode_list.length *
      (episode_hparams.num_classes_per_episode *
        episode_hparams.num_queries_per_class *
        episode_hparams.num_classes_per_episode) :=
    cosinePieces_length episode_list episode_hparams
      fun ep hep => ⟨(hwf ep hep).2.2, (hwf ep hep).2.1⟩
  obtain ⟨ep0, hep0⟩ := List.exists_mem_of_ne_nil episode_list hne
  have hisok : (EpisodeBatch.from_episode_list episode_list
      episode_hparams).isOk = true := by
    rw [from_episode_list_isOk_iff]
    refine ⟨?_, ?_, ?_, hC, ?_, hK⟩
    · exact flatMap_ne_nil_of_mem hep0 (List.length_pos.mp
        (by rw [(hwf ep0 hep0).1]; exact Nat.mul_pos hC hK))
    · exact flatMap_ne_nil_of_mem hep0 (List.length_pos.mp
        (by rw [(hwf ep0 hep0).2.1]; exact Nat.mul_pos hC hQ))
    · apply List.length_pos.mp
      rw [hlen]
      have hB : 0 < episode_list.length := List.length_pos.mpr hne
      exact Nat.mul_pos hB (Nat.mul_pos (Nat.mul_pos hC hQ) hC)
    · apply Nat.dvd_iff_mod_eq_zero.mp
      rw [hlen]
      exact Dvd.dvd.mul_left (Dvd.dvd.mul_left (Nat.dvd_refl _) _) _
  obtain ⟨batch, hok⟩ := except_isOk_exists hisok
  obtain ⟨-, -, -, -, -, -, hsl, hql, -, hct, hlt, -, -, -, -, -, -⟩ :=
    from_episode_list_fields _ _ _ hok
  refine ⟨batch, hok, fun ep hep => (hsingle ep hep).1, ?_, ?_, ?_, ?_⟩
  · rw [hsl, List.map_congr_left fun ep hep => (hsingle ep hep).2.1,
      ← List.flatMap_def, ← List.map_eq_flatMap]
  · rw [hql, List.map_congr_left fun ep hep => (hsingle ep hep).2.2.1,
      ← List.flatMap_def, ← List.map_eq_flatMap]
  · rw [hct, List.map_congr_left fun ep hep => (hsingle ep hep).2.2.2.1,
      cosinePieces_eq_flatMap, List.flatMap_def]
  · rw [hlt, List.map_congr_left fun ep hep => (hsingle ep hep).2.2.2.2,
      cosinePieces_eq_flatMap,
      toRows_flatMap _ hC episode_list cosineBlock fun ep hep => by
        rw [cosineBlock_length, (hwf ep hep).2.2]
        exact Nat.dvd_mul_left _ _,
      List.map_flatMap, List.flatMap_def]

/-- C3 witness: two concrete well-formed episodes with N=2, K=1, Q=1. -/
theorem c3_witness : ∃ batch,
    EpisodeBatch.from_episode_list
      [⟨[⟨1, 5⟩, ⟨1, 7⟩], [⟨3, 5⟩, ⟨2, 7⟩], [5, 7], ⟨2, 1, 1⟩⟩,
       ⟨[⟨2, 5⟩, ⟨2, 7⟩], [⟨1, 7⟩, ⟨1, 5⟩], [5, 7], ⟨2, 1, 1⟩⟩] ⟨2, 1, 1⟩ =
      Except.ok batch ∧
    (∀ ep ∈ [(⟨[⟨1, 5⟩, ⟨1, 7⟩], [⟨3, 5⟩, ⟨2, 7⟩], [5, 7], ⟨2, 1, 1⟩⟩ : Episode),
       ⟨[⟨2, 5⟩, ⟨2, 7⟩], [⟨1, 7⟩, ⟨1, 5⟩], [5, 7], ⟨2, 1, 1⟩⟩],
      (EpisodeBatch.from_episode_list [ep] ⟨2, 1, 1⟩).isOk = true) ∧
    batch.supports_len.data =
      ([(⟨[⟨1, 5⟩, ⟨1, 7⟩], [⟨3, 5⟩, ⟨2, 7⟩], [5, 7], ⟨2, 1, 1⟩⟩ : Episode),
        ⟨[⟨2, 5⟩, ⟨2, 7⟩], [⟨1, 7⟩, ⟨1, 5⟩], [5, 7], ⟨2, 1, 1⟩⟩].map
        (singleSupportsLen ⟨2, 1, 1⟩)).flatten ∧
    batch.queries_len.data =
      ([(⟨[⟨1, 5⟩, ⟨1, 7⟩], [⟨3, 5⟩, ⟨2, 7⟩], [5, 7], ⟨2, 1, 1⟩⟩ : Episode),
        ⟨[⟨2, 5⟩, ⟨2, 7⟩], [⟨1, 7⟩, ⟨1, 5⟩], [5, 7], ⟨2, 1, 1⟩⟩].map
        (singleQueriesLen ⟨2, 1, 1⟩)).flatten ∧
    batch.cosine_targets.data =
      ([(⟨[⟨1, 5⟩, ⟨1, 7⟩], [⟨3, 5⟩, ⟨2, 7⟩], [5, 7], ⟨2, 1, 1⟩⟩ : Episode),
        ⟨[⟨2, 5⟩, ⟨2, 7⟩], [⟨1, 7⟩, ⟨1, 5⟩], [5, 7], ⟨2, 1, 1⟩⟩].map
        (singleCosineTargets ⟨2, 1, 1⟩)).flatten ∧
    batch.label_targets.data =
      ([(⟨[⟨1, 5⟩, ⟨1, 7⟩], [⟨3, 5⟩, ⟨2, 7⟩], [5, 7], ⟨2, 1, 1⟩⟩ : Episode),
        ⟨[⟨2, 5⟩, ⟨2, 7⟩], [⟨1, 7⟩, ⟨1, 5⟩], [5, 7], ⟨2, 1, 1⟩⟩].map
        (singleLabelTargets ⟨2, 1, 1⟩)).flatten :=
  c3_collation_concat _ _ (by decide) (by decide) (by decide) (by decide)
    (by decide)

/-- C8: convert_to_local_labels returns the dict that sends the i-th smallest
stage label to i (a dense range [0, num_labels)) and destructively replaces
every in-scope sample's label with the mapped value of its previous label;
transfer_setup performs this conversion once per stage, before handing the
converted samples to the datasets from which that stage's episodes are later
sampled. -/
theorem c8_convert_to_local_labels (stage_labels : List Int) (samples : List Data)
    (hnd : stage_labels.Nodup)
    (hmem : ∀ s ∈ samples, s.y ∈ stage_labels) :
    ∃ mapping converted,
      convert_to_local_labels stage_labels samples =
        Except.ok (mapping, converted) ∧
      List.Sorted (· ≤ ·) (pySorted stage_labels) ∧
      (pySorted stage_labels).Perm stage_labels ∧
      (∀ i, i < stage_labels.length →
        dictLookup mapping ((pySorted stage_labels).getD i 0) = some i) ∧
      mapping.map Prod.snd = List.range stage_labels.length ∧
      converted = samples.map (fun s =>
        { s with y := ((pySorted stage_labels).indexOf s.y : Int) }) ∧
      ∀ train_val_split_ratio perm,
        transfer_setup stage_labels stage_labels samples samples
          train_val_split_ratio perm = Except.ok
          { base_global_to_local_labels := mapping
            train_dataset_samples :=
              (split_train_val train_val_split_ratio perm converted).1
            val_dataset_samples :=
              (split_train_val train_val_split_ratio perm converted).2
            novel_global_to_local_labels := mapping
            test_dataset_samples := converted
            test_dataset_stage_labels :=
              List.range (pySorted stage_labels).length } := by
  have hsortnd : (pySorted stage_labels).Nodup :=
    (List.perm_insertionSort (· ≤ ·) stage_labels).symm.nodup hnd
  have hmemsort : ∀ s ∈ samples, s.y ∈ pySorted stage_labels := fun s hs =>
    ((List.perm_insertionSort (· ≤ ·) stage_labels).mem_iff).mpr (hmem s hs)
  have helem : ∀ s ∈ samples,
      applyLabelDict ((pySorted stage_labels).enum.map fun p => (p.2, p.1)) s =
        Except.ok ((fun s =>
          { s with y := ((pySorted stage_labels).indexOf s.y : Int) }) s) := by
    intro s hs
    unfold applyLabelDict
    rw [dictLookup_mapping (pySorted stage_labels) hsortnd s.y (hmemsort s hs)]
  have hconv : convert_to_local_labels stage_labels samples = Except.ok
      ((pySorted stage_labels).enum.map fun p => (p.2, p.1),
        samples.map fun s =>
          { s with y := ((pySorted stage_labels).indexOf s.y : Int) }) := by
    unfold convert_to_local_labels
    dsimp only
    rw [mapM_ok _ _ samples helem]
    rfl
  refine ⟨_, _, hconv, List.sorted_insertionSort _ _,
    List.perm_insertionSort _ _, ?_, ?_, rfl, ?_⟩
  · intro i hi
    exact dictLookup_mapping_at (pySorted stage_labels) hsortnd i
      (by rw [pySorted_length]; exact hi)
  · rw [List.map_map]
    rw [List.map_congr_left (fun p _ => by
      show (Prod.snd ∘ fun q => (q.2, q.1)) p = Prod.fst p
      rfl)]
    rw [List.enum_map_fst, pySorted_length]
  · intro train_val_split_ratio perm
    unfold transfer_setup
    rw [hconv]
    rfl

/-- C8 witness: stage labels [10, 2, 5] and four in-scope samples: the dict
maps 2 to 0, 5 to 1 and 10 to 2, and every sample's label is rewritten. -/
theorem c8_witness : ∃ mapping converted,
    convert_to_local_labels [10, 2, 5] [⟨3, 5⟩, ⟨1, 2⟩, ⟨4, 10⟩, ⟨2, 5⟩] =
      Except.ok (mapping, converted) ∧
    List.Sorted (· ≤ ·) (pySorted [10, 2, 5]) ∧
    (pySorted [10, 2, 5]).Perm [10, 2, 5] ∧
    (∀ i, i < ([10, 2, 5] : List Int).length →
      dictLookup mapping ((pySorted [10, 2, 5]).getD i 0) = some i) ∧
    mapping.map Prod.snd = List.range ([10, 2, 5] : List Int).length ∧
    converted = ([⟨3, 5⟩, ⟨1, 2⟩, ⟨4, 10⟩, ⟨2, 5⟩] : List Data).map (fun s =>
      { s with y := ((pySorted [10, 2, 5]).indexOf s.y : Int) }) ∧
    ∀ train_val_split_ratio perm,
      transfer_setup [10, 2, 5] [10, 2, 5]
        [⟨3, 5⟩, ⟨1, 2⟩, ⟨4, 10⟩, ⟨2, 5⟩] [⟨3, 5⟩, ⟨1, 2⟩, ⟨4, 10⟩, ⟨2, 5⟩]
        train_val_split_ratio perm = Except.ok
        { base_global_to_local_labels := mapping
          train_dataset_samples :=
            (split_train_val train_val_split_ratio perm converted).1
          val_dataset_samples :=
            (split_train_val train_val_split_ratio perm converted).2
          novel_global_to_local_labels := mapping
          test_dataset_samples := converted
          test_dataset_stage_labels :=
            List.range (pySorted [10, 2, 5]).length } :=
  c8_convert_to_local_labels [10, 2, 5] [⟨3, 5⟩, ⟨1, 2⟩, ⟨4, 10⟩, ⟨2, 5⟩]
    (by decide) (by decide)

/-- C9 counterexample: a pool of 4 graphs in two classes (labels 0 and 1, two
graphs each), support_ratio 1/2, and the identity permutation as the shuffle
outcome.  The on-the-fly split takes the first ceil(1/2 * 4) = 2 shuffled
samples as supports — both class-0 graphs — so the class-0 support sub-pool
holds 2 graphs, not the claimed fixed fraction ceil(1/2 * 2) = 1 of class 0's
pool. -/
theorem c9_counterexample :
    split_query_support none (1 / 2)
      [0, 1, 2, 3] [⟨1, 0⟩, ⟨2, 0⟩, ⟨3, 1⟩, ⟨4, 1⟩] =
      QuerySupportSplit.samples [⟨1, 0⟩, ⟨2, 0⟩] [⟨3, 1⟩, ⟨4, 1⟩] ∧
    ([⟨1, 0⟩, ⟨2, 0⟩, ⟨3, 1⟩, ⟨4, 1⟩] : List Data).filter
      (fun s => s.y == 0) = [⟨1, 0⟩, ⟨2, 0⟩] ∧
    (([⟨1, 0⟩, ⟨2, 0⟩] : List Data).filter fun s => s.y == 0).length = 2 ∧
    (⌈(1 / 2 : ℚ) * (2 : ℚ)⌉).toNat = 1 ∧
    (2 : Nat) ≠ 1 := by
  refine ⟨?_, by decide, by decide, by norm_num, by decide⟩
  have hupper : (⌈(1 / 2 : ℚ) *
      (([⟨1, 0⟩, ⟨2, 0⟩, ⟨3, 1⟩, ⟨4, 1⟩] : List Data).length : ℚ)⌉).toNat = 2 := by
    norm_num
    rfl
  unfold split_query_support
  dsimp only
  rw [hupper]
  rfl

/-- C9 (amended): with no split file supplied, split_query_support partitions
the whole stage pool (all classes together, not each class separately): the
support pool receives the first ceil(support_ratio * pool size) shuffled
samples and the query pool the rest, so the two pools are disjoint with union
the pool, and restricted to any class label the two sub-pools are disjoint
with union that class's graphs — but the ceiling fraction applies to the
whole pool, not per class. -/
theorem c9_split_whole_pool (data_list : List Data) ( support_ratio : ℚ)
    (perm : List Nat) (hperm : perm.Perm (List.range data_list.length))
    (h0 : 0 ≤ support_ratio) (h1 : support_ratio ≤ 1) :
    ∃ supports queries,
      split_query_support none support_ratio perm data_list =
        QuerySupportSplit.samples supports queries ∧
      supports.length = (⌈ support_ratio * (data_list.length : ℚ)⌉).toNat ∧
      (supports ++ queries).Perm data_list ∧
      ∀ c : Int, ((supports.filter fun s => s.y == c) ++
          (queries.filter fun s => s.y == c)).Perm
        (data_list.filter fun s => s.y == c) := by
  refine ⟨_, _, rfl, ?_, ?_, ?_⟩
  · rw [List.length_map, List.length_take, hperm.length_eq, List.length_range]
    have hceil : (⌈ support_ratio * (data_list.length : ℚ)⌉).toNat ≤
        data_list.length := by
      have hle : support_ratio * (data_list.length : ℚ) ≤
          (data_list.length : ℚ) := by
        calc support_ratio * (data_list.length : ℚ) ≤
            1 * (data_list.length : ℚ) :=
              mul_le_mul_of_nonneg_right h1 (by positivity)
        _ = (data_list.length : ℚ) := one_mul _
      have := Int.ceil_mono hle
      rw [Int.ceil_natCast] at this
      calc (⌈ support_ratio * (data_list.length : ℚ)⌉).toNat ≤
          ((data_list.length : Int)).toNat := Int.toNat_le_toNat this
      _ = data_list.length := Int.toNat_natCast _
    omega
  · have hjoin : ((perm.take ((⌈ support_ratio *
        (data_list.length : ℚ)⌉).toNat)).map
          (fun idx => data_list.getD idx default) ++
        (perm.drop ((⌈ support_ratio * (data_list.length : ℚ)⌉).toNat)).map
          (fun idx => data_list.getD idx default)) =
        perm.map fun idx => data_list.getD idx default := by
      rw [← List.map_append, List.take_append_drop]
    have hp1 : (perm.map fun idx => data_list.getD idx default).Perm data_list := by
      have h := hperm.map fun idx => data_list.getD idx default
      rwa [map_getD_range] at h
    rw [hjoin]
    exact hp1
  · intro c
    rw [← List.filter_append]
    apply List.Perm.filter
    have hjoin : ((perm.take ((⌈ support_ratio *
        (data_list.length : ℚ)⌉).toNat)).map
          (fun idx => data_list.getD idx default) ++
        (perm.drop ((⌈ support_ratio * (data_list.length : ℚ)⌉).toNat)).map
          (fun idx => data_list.getD idx default)) =
        perm.map fun idx => data_list.getD idx default := by
      rw [← List.map_append, List.take_append_drop]
    have hp1 : (perm.map fun idx => data_list.getD idx default).Perm data_list := by
      have h := hperm.map fun idx => data_list.getD idx default
      rwa [map_getD_range] at h
    rw [hjoin]
    exact hp1

/-- C9 witness for the amended theorem: two graphs with distinct labels,
ratio 1/2, shuffle [1, 0]. -/
theorem c9_witness : ∃ supports queries,
    split_query_support none (1 / 2) [1, 0] [⟨1, 0⟩, ⟨2, 1⟩] =
      QuerySupportSplit.samples supports queries ∧
    supports.length =
      (⌈(1 / 2 : ℚ) * (([⟨1, 0⟩, ⟨2, 1⟩] : List Data).length : ℚ)⌉).toNat ∧
    (supports ++ queries).Perm [⟨1, 0⟩, ⟨2, 1⟩] ∧
    ∀ c : Int, ((supports.filter fun s => s.y == c) ++
        (queries.filter fun s => s.y == c)).Perm
      (([⟨1, 0⟩, ⟨2, 1⟩] : List Data).filter fun s => s.y == c) :=
  c9_split_whole_pool [⟨1, 0⟩, ⟨2, 1⟩] (1 / 2) [1, 0] (by decide)
    (by norm_num) (by norm_num)
